import Mathlib

/-!
# Verification of the `gsm` modem library core

A shallow embedding of the claim-relevant parts of the `gsm` Go library
(serial AT-command driver for cellular modems) together with proofs of the
frozen specification claims.

Modelling conventions:

* Go strings are modelled as `List Nat`.  For rune-oriented code
  (`[]rune`, `range` over a string, the UCS-2 codec) the list holds the
  Unicode code points of the string; for byte-oriented code
  (`splitText`, the serial byte stream) it holds the bytes.  All the
  inputs appearing in the claims are such that the two views agree or the
  relevant function is modelled at the correct granularity, which is
  noted on each definition.
* Machine integers are modelled as `Nat` (none of the claim-relevant code
  wraps around or sees negative values; Go `strconv.Atoi` results are
  handled with their error flag exactly as the source does).
* Fallible Go code (`(T, error)` results) is modelled with `Except`.
* Wall-clock loops (`readResponse`, `splitText`) are modelled with an
  explicit fuel / tick parameter: one tick per loop iteration.  The
  timeout of `readResponse` elapsing is fuel running out.
-/

/-- Code points (resp. bytes, for ASCII text both coincide) of a string
literal; used to transcribe the Go string literals of the source. -/
def strBytes (s : String) : List Nat := s.data.map Char.toNat

/-! ## UCS-2 codec (`src/utils.go`)

`EncodeUCS2` is `utf16.Encode([]rune(text))` followed by
`hex.EncodeToString` of the big-endian bytes; `DecodeUCS2` strips spaces,
hex-decodes, checks evenness, rebuilds big-endian `uint16`s and runs
`utf16.Decode`.  We embed Go's `unicode/utf16` and `encoding/hex`
behaviour exactly (including the replacement-character cases). -/

/-- Go `encoding/hex` digit alphabet: lowercase (`"0123456789abcdef"`). -/
def hexDigitChar (n : Nat) : Nat := if n < 10 then 48 + n else 87 + n

/-- Two lowercase hex characters of one byte, high nibble first
(Go `hex.EncodeToString`, per byte). -/
def hexOfByte (b : Nat) : List Nat := [hexDigitChar (b / 16), hexDigitChar (b % 16)]

/-- Go `hex.EncodeToString`. -/
def hexOfBytes (l : List Nat) : List Nat := (l.map hexOfByte).flatten

/-- Value of one hex character as accepted by Go `hex.DecodeString`
(digits, lowercase and uppercase letters). -/
def hexDigitVal (c : Nat) : Option Nat :=
  if 48 ≤ c ∧ c ≤ 57 then some (c - 48)
  else if 97 ≤ c ∧ c ≤ 102 then some (c - 87)
  else if 65 ≤ c ∧ c ≤ 70 then some (c - 55)
  else none

/-- Go `hex.DecodeString`: fails on an odd number of characters or a
non-hex character. -/
def decodeHex : List Nat → Option (List Nat)
  | [] => some []
  | [_] => none
  | c1 :: c2 :: rest =>
    match hexDigitVal c1, hexDigitVal c2, decodeHex rest with
    | some h, some l, some bs => some ((h * 16 + l) :: bs)
    | _, _, _ => none

/-- Big-endian bytes of one UTF-16 code unit (`data[i*2] = byte(r >> 8)`,
`data[i*2+1] = byte(r & 0xFF)` in `EncodeUCS2`). -/
def bytesOfU16 (u : Nat) : List Nat := [u / 256, u % 256]

/-- Big-endian byte serialisation of a UTF-16 code-unit sequence. -/
def bytesOfU16s (l : List Nat) : List Nat := (l.map bytesOfU16).flatten

/-- Inverse pairing used by `DecodeUCS2`:
`runes[i/2] = uint16(data[i])<<8 | uint16(data[i+1])`.  Only ever applied
to even-length data (the source checks the length first). -/
def u16sOfBytes : List Nat → List Nat
  | b1 :: b2 :: rest => (b1 * 256 + b2) :: u16sOfBytes rest
  | _ => []

/-- Go `utf16.Encode`, per rune: BMP scalars pass through, surrogate code
points and out-of-range values become U+FFFD, the rest get a surrogate
pair. -/
def utf16EncodeRune (r : Nat) : List Nat :=
  if r < 0x10000 then
    if 0xD800 ≤ r ∧ r < 0xE000 then [0xFFFD] else [r]
  else if r ≤ 0x10FFFF then
    [0xD800 + (r - 0x10000) / 0x400, 0xDC00 + (r - 0x10000) % 0x400]
  else [0xFFFD]

/-- Go `utf16.Encode` over a rune sequence. -/
def utf16Encode (s : List Nat) : List Nat := (s.map utf16EncodeRune).flatten

/-- Go `utf16.Decode`: BMP units pass through, a high surrogate followed
by a low surrogate combines, anything else becomes U+FFFD (consuming one
unit). -/
def utf16Decode : List Nat → List Nat
  | [] => []
  | [r] => if r < 0xD800 ∨ 0xE000 ≤ r then [r] else [0xFFFD]
  | r :: r2 :: rest =>
    if r < 0xD800 ∨ 0xE000 ≤ r then r :: utf16Decode (r2 :: rest)
    else if r < 0xDC00 ∧ (0xDC00 ≤ r2 ∧ r2 < 0xE000) then
      (0x10000 + (r - 0xD800) * 0x400 + (r2 - 0xDC00)) :: utf16Decode rest
    else 0xFFFD :: utf16Decode (r2 :: rest)

/-- Function `EncodeUCS2` (`src/utils.go`, lines 42-55): UTF-16 encode, big-endian
bytes, lowercase hex.  Input: the code points of the Go string; output:
the code points of the hex string. -/
def EncodeUCS2 (text : List Nat) : List Nat :=
  hexOfBytes (bytesOfU16s (utf16Encode text))

/-- Function `DecodeUCS2` (`src/utils.go`, lines 15-39): strip spaces, hex-decode,
require an even byte count, big-endian pairs to UTF-16 units, UTF-16
decode.  The result is the code-point sequence of the decoded string. -/
def DecodeUCS2 (hexStr : List Nat) : Except String (List Nat) :=
  let h := hexStr.filter (fun c => c != 32)
  match decodeHex h with
  | none => .error "failed to decode hex"
  | some data =>
    if data.length % 2 ≠ 0 then .error "invalid UCS2 data: odd number of bytes"
    else .ok (utf16Decode (u16sOfBytes data))

/-- A Unicode scalar value: what one element of `[]rune(s)` can be when
`s` is a well-formed UTF-8 Go string. -/
def ValidScalar (r : Nat) : Prop := r ≤ 0x10FFFF ∧ (r < 0xD800 ∨ 0xE000 ≤ r)

instance (r : Nat) : Decidable (ValidScalar r) := by
  unfold ValidScalar; infer_instance

/-- Uppercase hexadecimal digit (what claim C8 asserts the encoder
emits). -/
def IsUpperHexDigit (c : Nat) : Prop :=
  (48 ≤ c ∧ c ≤ 57) ∨ (65 ≤ c ∧ c ≤ 70)

instance (c : Nat) : Decidable (IsUpperHexDigit c) := by
  unfold IsUpperHexDigit; infer_instance

/-- Lowercase hexadecimal digit (what `hex.EncodeToString` actually
emits). -/
def IsLowerHexDigit (c : Nat) : Prop :=
  (48 ≤ c ∧ c ≤ 57) ∨ (97 ≤ c ∧ c ≤ 102)

instance (c : Nat) : Decidable (IsLowerHexDigit c) := by
  unfold IsLowerHexDigit; infer_instance

/-! ## Byte-stream helpers

`strings.Contains`, `strings.HasPrefix`, `strings.TrimSpace` on the
`List Nat` representation. -/

/-- Go `strings.Contains pat s`: `pat` occurs as a contiguous substring. -/
def goContains (s pat : List Nat) : Prop := pat <:+: s

instance (s pat : List Nat) : Decidable (goContains s pat) := by
  unfold goContains; infer_instance

/-- Go `strings.HasPrefix`. -/
def goHasPrefix (s pat : List Nat) : Prop := pat <+: s

instance (s pat : List Nat) : Decidable (goHasPrefix s pat) := by
  unfold goHasPrefix; infer_instance

/-- ASCII white space as trimmed by Go `strings.TrimSpace` (the
claim-relevant inputs contain no non-ASCII white space; multi-byte
white-space runes never appear byte-wise in a trimmable position). -/
def isGoSpace (c : Nat) : Bool := c == 32 || c == 9 || c == 10 || c == 11 || c == 12 || c == 13

/-- Go `strings.TrimSpace`. -/
def goTrimSpace (l : List Nat) : List Nat :=
  ((l.dropWhile isGoSpace).reverse.dropWhile isGoSpace).reverse

/-! ## Variant of `readResponse` — line-based variant (`src/modem.go`, lines 234-273)

The loop reads one `bufio` line per iteration (`ReadString('\n')` with a
100 ms port read timeout) until the wall-clock timeout elapses.  We model
one loop iteration per unit of fuel (`timeout` measured in iterations)
and the port as the list of `ReadString` outcomes: `none` is a read
error / port timeout, `some line` a raw line (delimiter included).  Once
the list is exhausted every further read errors, which is what the idle
port does. -/

/-- One `readResponse` transaction of the `bufio.Reader` variant.
Returns the accumulated response; errors are the Go `error` results
(`"timeout waiting for response"`, `"command returned ERROR"`). -/
def readResponseLines : Nat → List (Option (List Nat)) → List Nat →
    Except String (List Nat)
  | 0, _, acc =>
    if acc = [] then .error "timeout waiting for response" else .ok acc
  | fuel + 1, reads, acc =>
    match reads with
    | none :: rest =>
      if acc ≠ [] ∧ goContains acc (strBytes "OK") then .ok acc
      else if acc ≠ [] ∧ goContains acc (strBytes "ERROR") then
        .error "command returned ERROR"
      else readResponseLines fuel rest acc
    | some line :: rest =>
      let l := goTrimSpace line
      if l ≠ [] then
        let acc' := acc ++ l ++ [10]
        if goHasPrefix l (strBytes "OK") ∨ goHasPrefix l (strBytes "ERROR") ∨
            goHasPrefix l (strBytes "+CME ERROR") ∨ goHasPrefix l (strBytes "+CMS ERROR")
        then .ok acc'
        else readResponseLines fuel rest acc'
      else readResponseLines fuel rest acc
    | [] =>
      if acc ≠ [] ∧ goContains acc (strBytes "OK") then .ok acc
      else if acc ≠ [] ∧ goContains acc (strBytes "ERROR") then
        .error "command returned ERROR"
      else readResponseLines fuel [] acc

/-! ## Variant of `readResponse` — chunk-based variant (`src/modem.go`, lines 546-589)

The loop reads raw chunks (`port.Read`) while `time.Since(startTime) <
timeout`; again one iteration per unit of fuel.  A chunk read can error
(`ReadChunk.err`) or deliver `n ≥ 0` bytes. -/

/-- One `port.Read` outcome for the chunk-based `readResponse`. -/
inductive ReadChunk where
  | err : ReadChunk
  | chunk : List Nat → ReadChunk
deriving DecidableEq

/-- One `readResponse` transaction of the chunk-based variant.  The only
`error` result is `"timeout waiting for response"` with an empty
accumulator. -/
def readResponseChunks : Nat → List ReadChunk → List Nat →
    Except String (List Nat)
  | 0, _, acc =>
    if acc = [] then .error "timeout waiting for response" else .ok acc
  | fuel + 1, reads, acc =>
    match reads with
    | ReadChunk.err :: rest =>
      if acc ≠ [] ∧ (goContains acc (strBytes "OK") ∨ goContains acc (strBytes "ERROR"))
      then .ok acc
      else readResponseChunks fuel rest acc
    | ReadChunk.chunk c :: rest =>
      if c.length > 0 then
        let acc' := acc ++ c
        if goContains acc' (strBytes "\r\nOK\r\n") ∨
            goContains acc' (strBytes "\r\nERROR\r\n") ∨
            goContains acc' (strBytes "\r\n+CME ERROR") ∨
            goContains acc' (strBytes "\r\n+CMS ERROR")
        then .ok acc'
        else readResponseChunks fuel rest acc'
      else readResponseChunks fuel rest acc
    | [] =>
      if acc ≠ [] ∧ (goContains acc (strBytes "OK") ∨ goContains acc (strBytes "ERROR"))
      then .ok acc
      else readResponseChunks fuel [] acc

/-! ## Function `SendSMS` (`src/unnamed/part_004`, lines 32-99)

`SendSMS` is modelled as the sequence of serial-port / mutex operations
it performs (its *trace*) together with its `error` result.  Reads are
driven by an oracle: `r1` is the outcome of the `AT+CMGF=1` transaction,
`r2` of the `AT+CSCS=...` transaction, `r3` of the `readResponse` after
the message body (`none` = the transaction returned an error, `some s` =
it returned body `s`).  The trailing `AT+CSCS="GSM"` restore ignores its
result, so no oracle entry is needed for it.  Port writes are modelled as
succeeding (the claims under test concern the protocol sequence, not I/O
failure propagation; a failing write only cuts the trace short). -/

/-- One observable step of the modem transport. -/
inductive PortAction where
  | lock : PortAction
  | unlock : PortAction
  | flush : PortAction
  | write : List Nat → PortAction
  | sleepMs : Nat → PortAction
  | readResp : PortAction
deriving DecidableEq

/-- Actions of one `SendCommand`/`sendCommand` body
(`src/modem.go`, lines 219-231): flush, write `cmd + "\r\n"`, read. -/
def sendCommandTrace (cmd : List Nat) : List PortAction :=
  [PortAction.flush, PortAction.write (cmd ++ strBytes "\r\n"), PortAction.readResp]

/-- The needs-UCS2 test of `SendSMS`: some rune of the text is `> 127`. -/
def needsUCS2 (text : List Nat) : Bool := text.any (fun r => 127 < r)

/-- Function `SendSMS number text` under read oracle `r1, r2, r3`: the trace of
port/mutex operations and the function result. -/
def SendSMS (number text : List Nat) (r1 r2 r3 : Option (List Nat)) :
    List PortAction × Except String Unit :=
  let t1 := [PortAction.lock] ++ sendCommandTrace (strBytes "AT+CMGF=1") ++ [PortAction.unlock]
  match r1 with
  | none => (t1, .error "failed to set text mode")
  | some _ =>
    let cscsCmd := if needsUCS2 text then strBytes "AT+CSCS=\"UCS2\""
                   else strBytes "AT+CSCS=\"GSM\""
    let t2 := t1 ++ [PortAction.lock] ++ sendCommandTrace cscsCmd ++ [PortAction.unlock]
    match r2 with
    | none => (t2, .error "failed to set encoding")
    | some _ =>
      let number' := if needsUCS2 text then EncodeUCS2 number else number
      let text' := if needsUCS2 text then EncodeUCS2 text else text
      let cmgs := strBytes "AT+CMGS=\"" ++ number' ++ [34]
      let t3 := t2 ++ [PortAction.lock, PortAction.write (cmgs ++ [13]),
        PortAction.sleepMs 100, PortAction.write (text' ++ [26]), PortAction.readResp]
      match r3 with
      | none => (t3 ++ [PortAction.unlock], .error "failed to send SMS")
      | some resp =>
        if goContains resp (strBytes "OK") then
          (t3 ++ sendCommandTrace (strBytes "AT+CSCS=\"GSM\"") ++ [PortAction.unlock], .ok ())
        else (t3 ++ [PortAction.unlock], .error "SMS sending failed")

/-! ## Functions `splitText` and `SendLongSMS` (`src/unnamed/part_004`, lines 410-457)

`splitText` works on the *bytes* of the text (`len`, `text[i]`,
slicing).  The `for len(text) > 0` loop carries fuel: `splitTextGo fuel`
is `none` when the loop has not finished within `fuel` iterations. -/

/-- The inner back-scan of `splitText`: starting from `i = maxLen-1`,
while `i > maxLen-20 && i > 0`, return the first `i` with `text[i] = ' '`;
otherwise `maxLen`.  The `maxLen-20` bound is Go `int` arithmetic, hence
the cast to `Int`. -/
def findSplitAt (text : List Nat) (maxLen : Nat) : Nat → Nat
  | 0 => maxLen
  | i + 1 =>
    if (maxLen : Int) - 20 < (i + 1 : Nat) then
      if text.getD (i + 1) 0 = 32 then i + 1
      else findSplitAt text maxLen i
    else maxLen

/-- One execution of the `splitText` loop body chain, with at most `fuel`
iterations.  `parts` accumulate in order via `::` (the Go `append`). -/
def splitTextGo : Nat → List Nat → Nat → Option (List (List Nat))
  | 0, text, _ => if text = [] then some [] else none
  | fuel + 1, text, maxLen =>
    if text = [] then some []
    else if text.length ≤ maxLen then some [text]
    else
      let splitAt := findSplitAt text maxLen (maxLen - 1)
      (splitTextGo fuel (goTrimSpace (text.drop splitAt)) maxLen).map
        (fun ps => text.take splitAt :: ps)

/-- Function `splitText` with the fuel that (for `maxLen ≥ 1`) always suffices. -/
def splitText (text : List Nat) (maxLen : Nat) : Option (List (List Nat)) :=
  splitTextGo (text.length + 1) text maxLen

/-- ASCII decimal digits of a number (`fmt.Sprintf("%d", n)`). -/
def natDecimal (n : Nat) : List Nat := (Nat.toDigits 10 n).map Char.toNat

/-- The `[i/N] ` chunk header of `SendLongSMS`
(`fmt.Sprintf("[%d/%d] %s", i+1, len(parts), part)`). -/
def partHeader (i n : Nat) : List Nat :=
  [91] ++ natDecimal i ++ [47] ++ natDecimal n ++ [93, 32]

/-- Function `SendLongSMS number text`, modelled as the list of message texts it
sends (each sent through `SendSMS`): the whole text when it fits in 160
bytes, otherwise the `splitText text (160 - 10)` chunks with `[i/N] `
headers.  `none` only if the `splitText` loop fails to finish within its
fuel (ruled out by the C10 theorem). -/
def SendLongSMSMessages (text : List Nat) : Option (List (List Nat)) :=
  if text.length ≤ 160 then some [text]
  else
    (splitText text (160 - 10)).map (fun parts =>
      (List.range parts.length).zip parts |>.map
        (fun p => partHeader (p.1 + 1) parts.length ++ p.2))

/-! ## Function `parseGSMTime` (`src/unnamed/part_004`, lines 375-408)

The source splits on `","`, `"/"`, `"+"` and `":"` with `strings.Split`,
converts components with `strconv.Atoi` *ignoring the error* (a failed
component stays `0`), and builds `time.Date(year, month, day, hour,
minute, second, 0, time.UTC)`; structural failures return `time.Time{}`
(1 Jan year 1, 00:00:00 UTC). -/

/-- Go `strings.Split` on a single-byte separator.  Always returns at
least one (possibly empty) piece. -/
def goSplit (sep : Nat) : List Nat → List (List Nat)
  | [] => [[]]
  | c :: rest =>
    match goSplit sep rest with
    | h :: t => if c = sep then [] :: h :: t else (c :: h) :: t
    | [] => if c = sep then [[], []] else [[c]]

/-- Digit run of Go `strconv.Atoi` (no sign): `none` on an empty string
or any non-digit character. -/
def atoiDigits (acc : Nat) : List Nat → Option Nat
  | [] => some acc
  | c :: rest =>
    if 48 ≤ c ∧ c ≤ 57 then atoiDigits (acc * 10 + (c - 48)) rest else none

/-- Go `strconv.Atoi` restricted to the non-negative results that appear
here (an optional leading `+`; a leading `-` would produce a negative
number, which no claim-relevant input yields — a `-` anywhere else
fails like any non-digit). -/
def goAtoi : List Nat → Option Nat
  | [] => none
  | c :: rest =>
    if c = 43 then (if rest = [] then none else atoiDigits 0 rest)
    else if 48 ≤ c ∧ c ≤ 57 then atoiDigits (c - 48) rest
    else none

/-- Go `x, _ := strconv.Atoi(s)`: the value with the error discarded. -/
def atoiOr0 (s : List Nat) : Nat := (goAtoi s).getD 0

/-- A wall-clock instant as built by `time.Date(..., time.UTC)`.  The
claims only reach `time.Date` with in-range components (month 1-12 etc.),
where Go's normalisation is the identity, so the instant is just the
component tuple. -/
structure GoTime where
  year : Nat
  month : Nat
  day : Nat
  hour : Nat
  minute : Nat
  second : Nat
deriving DecidableEq

/-- Go zero time `time.Time` value: 1 January year 1, 00:00:00 UTC. -/
def goTimeZero : GoTime := ⟨1, 1, 1, 0, 0, 0⟩

/-- Function `parseGSMTime` (`src/unnamed/part_004`, lines 375-408). -/
def parseGSMTime (timeStr : List Nat) : GoTime :=
  let parts := goSplit 44 timeStr
  if parts.length < 2 then goTimeZero
  else
    let dateParts := goSplit 47 (parts.getD 0 [])
    if dateParts.length < 3 then goTimeZero
    else
      let timeParts := goSplit 43 (parts.getD 1 [])
      if timeParts.length < 1 then goTimeZero
      else
        let timeComponents := goSplit 58 (timeParts.getD 0 [])
        if timeComponents.length < 3 then goTimeZero
        else
          { year := atoiOr0 (strBytes "20" ++ dateParts.getD 0 [])
            month := atoiOr0 (dateParts.getD 1 [])
            day := atoiOr0 (dateParts.getD 2 [])
            hour := atoiOr0 (timeComponents.getD 0 [])
            minute := atoiOr0 (timeComponents.getD 1 [])
            second := atoiOr0 (timeComponents.getD 2 []) }

/-! ## Event channel (`src/modem.go` line 155, `src/events.go` lines 110-117)

`New` creates `eventChan: make(chan Event, 100)`.  The event-listener
loop delivers with `select { case m.eventChan <- *event: ; default: }`:
a non-blocking send on the buffered channel that drops the event when the
buffer is full.  The buffered channel is modelled as its queue of pending
events (no receiver is waiting inside the loop). -/

/-- The capacity of the event channel created by `New`. -/
def eventChanCapacity : Nat := 100

/-- The non-blocking enqueue of `eventListenerLoop`: returns the new
queue and whether the event was delivered (`false` = dropped by the
`default:` branch, which does nothing at all). -/
def eventEnqueue {α : Type} (q : List α) (e : α) : List α × Bool :=
  if q.length < eventChanCapacity then (q ++ [e], true) else (q, false)

/-! ## Stop-channel lifecycle (`src/events.go` lines 73-77,
`src/modem.go` lines 195-208)

`StopEventListener` and `Close` both run `if m.stopEventsCh != nil {
close(m.stopEventsCh) }`.  Go's `close` on an already-closed channel
panics; neither function records that the channel was closed, so the
`nil` guard never helps after a first close. -/

/-- State of a Go channel value (a non-nil `chan struct{}`). -/
inductive ChanState where
  | opened : ChanState
  | closed : ChanState
deriving DecidableEq

/-- Go `close(ch)`: closing an already-closed channel panics. -/
def goCloseChan : ChanState → Except String ChanState
  | .opened => .ok .closed
  | .closed => .error "close of closed channel"

/-- The claim-relevant lifecycle state of a `Modem`: the `stopEventsCh`
field (`none` = nil channel) and whether the serial port is open. -/
structure ModemLife where
  stopEventsCh : Option ChanState
  portOpen : Bool
deriving DecidableEq

/-- The state set up by `New` (`src/modem.go`, lines 152-158):
`stopEventsCh: make(chan struct{})`, port open. -/
def newModemLife : ModemLife := ⟨some ChanState.opened, true⟩

/-- Function `StopEventListener` (`src/events.go`, lines 73-77): closes
`stopEventsCh` if non-nil; a panic propagates. -/
def StopEventListener (m : ModemLife) : Except String ModemLife :=
  match m.stopEventsCh with
  | some ch => (goCloseChan ch).map (fun ch' => { m with stopEventsCh := some ch' })
  | none => .ok m

/-- Function `Close` (`src/modem.go`, lines 195-208): closes `stopEventsCh` if
non-nil, then closes the port; a panic propagates. -/
def ModemClose (m : ModemLife) : Except String ModemLife :=
  match m.stopEventsCh with
  | some ch =>
    (goCloseChan ch).map (fun ch' => { m with stopEventsCh := some ch', portOpen := false })
  | none => .ok { m with portOpen := false }

/-! ## Codec lemmas -/

theorem hexDigitVal_hexDigitChar (d : Nat) (h : d < 16) :
    hexDigitVal (hexDigitChar d) = some d := by
  unfold hexDigitChar hexDigitVal
  by_cases h10 : d < 10
  · rw [if_pos h10, if_pos (by omega)]
    simp only [Option.some.injEq]; omega
  · rw [if_neg h10, if_neg (by omega), if_pos (by omega)]
    simp only [Option.some.injEq]; omega

theorem decodeHex_hexOfByte (b : Nat) (hb : b < 256) (rest : List Nat) :
    decodeHex (hexOfByte b ++ rest) = (decodeHex rest).map (fun bs => b :: bs) := by
  show decodeHex (hexDigitChar (b / 16) :: hexDigitChar (b % 16) :: rest) = _
  rw [decodeHex, hexDigitVal_hexDigitChar _ (by omega), hexDigitVal_hexDigitChar _ (by omega)]
  cases h : decodeHex rest with
  | none => simp
  | some bs =>
    simp only [Option.map_some', Option.some.injEq, List.cons.injEq]
    exact ⟨by omega, trivial⟩

theorem decodeHex_hexOfBytes (l : List Nat) (h : ∀ b ∈ l, b < 256) :
    decodeHex (hexOfBytes l) = some l := by
  induction l with
  | nil => rfl
  | cons b t ih =>
    have : hexOfBytes (b :: t) = hexOfByte b ++ hexOfBytes t := by
      simp [hexOfBytes]
    rw [this, decodeHex_hexOfByte b (h b (by simp)), ih (fun x hx => h x (by simp [hx]))]
    rfl

theorem u16sOfBytes_bytesOfU16s (l : List Nat) (h : ∀ u ∈ l, u < 65536) :
    u16sOfBytes (bytesOfU16s l) = l := by
  induction l with
  | nil => rfl
  | cons u t ih =>
    have : bytesOfU16s (u :: t) = u / 256 :: u % 256 :: bytesOfU16s t := by
      simp [bytesOfU16s, bytesOfU16]
    rw [this, u16sOfBytes, ih (fun x hx => h x (by simp [hx]))]
    have hu := h u (by simp)
    congr 1
    omega

theorem bytesOfU16s_length (l : List Nat) : (bytesOfU16s l).length = 2 * l.length := by
  induction l with
  | nil => rfl
  | cons u t ih => simp [bytesOfU16s, bytesOfU16] at *; omega

theorem hexOfBytes_length (l : List Nat) : (hexOfBytes l).length = 2 * l.length := by
  induction l with
  | nil => rfl
  | cons b t ih => simp [hexOfBytes, hexOfByte] at *; omega

theorem utf16Encode_units_lt (s : List Nat) : ∀ u ∈ utf16Encode s, u < 65536 := by
  intro u hu
  simp only [utf16Encode, List.mem_flatten, List.mem_map] at hu
  obtain ⟨_, ⟨r, _, rfl⟩, hmem⟩ := hu
  unfold utf16EncodeRune at hmem
  split_ifs at hmem <;> simp at hmem <;> omega

theorem bytesOfU16s_lt (l : List Nat) (h : ∀ u ∈ l, u < 65536) :
    ∀ b ∈ bytesOfU16s l, b < 256 := by
  intro b hb
  simp only [bytesOfU16s, List.mem_flatten, List.mem_map] at hb
  obtain ⟨_, ⟨u, hu, rfl⟩, hmem⟩ := hb
  have := h u hu
  simp [bytesOfU16] at hmem
  omega

theorem hexOfBytes_mem_lower (l : List Nat) (h : ∀ b ∈ l, b < 256) :
    ∀ c ∈ hexOfBytes l, IsLowerHexDigit c := by
  intro c hc
  simp only [hexOfBytes, List.mem_flatten, List.mem_map] at hc
  obtain ⟨_, ⟨b, hb, rfl⟩, hmem⟩ := hc
  have hblt := h b hb
  simp only [hexOfByte, List.mem_cons, List.not_mem_nil, or_false] at hmem
  unfold IsLowerHexDigit
  rcases hmem with rfl | rfl <;> unfold hexDigitChar <;> split_ifs <;> omega

theorem utf16Decode_cons_bmp (r : Nat) (rest : List Nat)
    (h : r < 0xD800 ∨ 0xE000 ≤ r) :
    utf16Decode (r :: rest) = r :: utf16Decode rest := by
  cases rest with
  | nil => simp [utf16Decode, h]
  | cons r2 t => rw [utf16Decode, if_pos h]

theorem utf16Decode_cons_pair (hi lo : Nat) (rest : List Nat)
    (hhi : 0xD800 ≤ hi ∧ hi < 0xDC00) (hlo : 0xDC00 ≤ lo ∧ lo < 0xE000) :
    utf16Decode (hi :: lo :: rest) =
      (0x10000 + (hi - 0xD800) * 0x400 + (lo - 0xDC00)) :: utf16Decode rest := by
  rw [utf16Decode, if_neg (by omega), if_pos (by omega)]

set_option maxRecDepth 4000 in
theorem utf16_roundtrip (s : List Nat) (h : ∀ r ∈ s, ValidScalar r) :
    utf16Decode (utf16Encode s) = s := by
  induction s with
  | nil => rfl
  | cons r t ih =>
    have hr := h r (by simp)
    obtain ⟨hle, hsurr⟩ := hr
    have henc : utf16Encode (r :: t) = utf16EncodeRune r ++ utf16Encode t := by
      simp [utf16Encode]
    rw [henc]
    by_cases hbmp : r < 0x10000
    · have : utf16EncodeRune r = [r] := by
        unfold utf16EncodeRune
        rw [if_pos hbmp, if_neg (by omega)]
      rw [this, List.cons_append, List.nil_append,
        utf16Decode_cons_bmp r _ (by omega),
        ih (fun x hx => h x (List.mem_cons_of_mem _ hx))]
    · have : utf16EncodeRune r =
          [0xD800 + (r - 0x10000) / 0x400, 0xDC00 + (r - 0x10000) % 0x400] := by
        unfold utf16EncodeRune
        rw [if_neg hbmp, if_pos (by omega)]
      rw [this]
      have hq : (r - 0x10000) / 0x400 < 0x400 := by omega
      have hm : (r - 0x10000) % 0x400 < 0x400 := by omega
      rw [List.cons_append, List.cons_append, List.nil_append,
        utf16Decode_cons_pair _ _ _ (by omega) (by omega),
        ih (fun x hx => h x (List.mem_cons_of_mem _ hx))]
      have hval : 0x10000 + (0xD800 + (r - 0x10000) / 0x400 - 0xD800) * 0x400 +
          (0xDC00 + (r - 0x10000) % 0x400 - 0xDC00) = r := by
        have := Nat.div_add_mod (r - 0x10000) 0x400
        omega
      rw [hval]

/-- C4: for every sequence of Unicode scalar values (in particular
strings with surrogate-pair emoji), decoding the encoding succeeds and
returns the original sequence. -/
theorem DecodeUCS2_EncodeUCS2_roundtrip (s : List Nat)
    (h : ∀ r ∈ s, ValidScalar r) :
    DecodeUCS2 (EncodeUCS2 s) = .ok s := by
  have hlt := utf16Encode_units_lt s
  have hbytes := bytesOfU16s_lt _ hlt
  have hlower := hexOfBytes_mem_lower _ hbytes
  unfold DecodeUCS2 EncodeUCS2
  have hfilter : (hexOfBytes (bytesOfU16s (utf16Encode s))).filter (fun c => c != 32) =
      hexOfBytes (bytesOfU16s (utf16Encode s)) := by
    apply List.filter_eq_self.mpr
    intro c hc
    have := hlower c hc
    unfold IsLowerHexDigit at this
    simp only [bne_iff_ne, ne_eq, decide_eq_true_eq]
    omega
  simp only [hfilter, decodeHex_hexOfBytes _ hbytes]
  rw [if_neg (by rw [bytesOfU16s_length]; omega),
    u16sOfBytes_bytesOfU16s _ hlt, utf16_roundtrip s h]

/-- C4 witness: the round trip on `"Hi🚀"` (U+1F680 needs a surrogate
pair). -/
theorem DecodeUCS2_EncodeUCS2_roundtrip_witness :
    DecodeUCS2 (EncodeUCS2 [72, 105, 128640]) = .ok [72, 105, 128640] :=
  DecodeUCS2_EncodeUCS2_roundtrip [72, 105, 128640] (by decide)

/-- C8 (counterexample): `EncodeUCS2` uses Go `hex.EncodeToString`, whose
alphabet is lowercase.  Encoding `"П"` (U+041F) yields `"041f"`, whose
last character `f` is not an uppercase hexadecimal digit, refuting the
claim that the output consists only of uppercase hex digits. -/
theorem EncodeUCS2_not_uppercase :
    EncodeUCS2 [0x41F] = strBytes "041f" ∧
    ¬ (∀ c ∈ EncodeUCS2 [0x41F], IsUpperHexDigit c) := by
  constructor <;> decide

/-- C8 (amended): for every string, `EncodeUCS2` consists only of
*lowercase* hexadecimal digits with no separators, and its length is a
multiple of 4 hex characters. -/
theorem EncodeUCS2_lower_hex_len_mul4 (s : List Nat) :
    (∀ c ∈ EncodeUCS2 s, IsLowerHexDigit c) ∧ (EncodeUCS2 s).length % 4 = 0 := by
  refine ⟨hexOfBytes_mem_lower _ (bytesOfU16s_lt _ (utf16Encode_units_lt s)), ?_⟩
  unfold EncodeUCS2
  rw [hexOfBytes_length, bytesOfU16s_length]
  omega

/-- C9: after `StopEventListener` has closed the stop channel, a second
`StopEventListener`, or a `Close`, runs `close` on the already-closed
channel and panics — neither function records or checks that the channel
was already closed (the `!= nil` guard does not help). -/
theorem stop_then_stop_or_close_panics :
    StopEventListener newModemLife = .ok ⟨some ChanState.closed, true⟩ ∧
    StopEventListener ⟨some ChanState.closed, true⟩ = .error "close of closed channel" ∧
    ModemClose ⟨some ChanState.closed, true⟩ = .error "close of closed channel" :=
  ⟨rfl, rfl, rfl⟩

/-- C6 (counterexample): when the event channel is full the
`default:` branch of the non-blocking send does nothing at all — the
event disappears and the observable state is completely unchanged.  In
particular no drop counter is incremented (the `Modem` struct has no such
field), refuting the claim that "a drop counter is incremented by exactly
1 per dropped event". -/
theorem eventEnqueue_full_drops_silently :
    eventEnqueue (List.replicate 100 (0 : Nat)) 7 = (List.replicate 100 0, false) := by
  rfl

/-- C6 (amended): the event channel is created with capacity 100; the
listener loop's enqueue never blocks (it always immediately returns
either "delivered" or "dropped"); when the channel is full the new event
is silently dropped, with no counter of any kind — the state is
unchanged. -/
theorem eventEnqueue_spec :
    eventChanCapacity = 100 ∧
    ∀ (α : Type) (q : List α) (e : α),
      (eventEnqueue q e = (q ++ [e], true) ∨ eventEnqueue q e = (q, false)) ∧
      (q.length < 100 → eventEnqueue q e = (q ++ [e], true)) ∧
      (100 ≤ q.length → eventEnqueue q e = (q, false)) := by
  refine ⟨rfl, fun α q e => ⟨?_, fun h => ?_, fun h => ?_⟩⟩ <;>
    unfold eventEnqueue eventChanCapacity
  · by_cases h : q.length < 100
    · exact Or.inl (by rw [if_pos h])
    · exact Or.inr (by rw [if_neg h])
  · rw [if_pos h]
  · rw [if_neg (by omega)]

/-- C6 (amended) witness: a non-full queue delivers, a full queue
drops. -/
theorem eventEnqueue_spec_witness :
    eventEnqueue ([] : List Nat) 5 = ([5], true) ∧
    eventEnqueue (List.replicate 100 (0 : Nat)) 5 = (List.replicate 100 0, false) :=
  ⟨(eventEnqueue_spec.2 Nat [] 5).2.1 (by simp),
   (eventEnqueue_spec.2 Nat _ 5).2.2 (by simp)⟩

/-- C1 (counterexample): fed the canned response
`\r\n+CMS ERROR: 305\r\n`, *both* `readResponse` variants return the
accumulated text as a *successful* result (`nil` error) — not an error of
kind `ModemError` — refuting the claim. -/
theorem readResponse_cms_error_is_ok :
    readResponseChunks 10 [ReadChunk.chunk (strBytes "\r\n+CMS ERROR: 305\r\n")] [] =
      .ok (strBytes "\r\n+CMS ERROR: 305\r\n") ∧
    readResponseLines 10 [some (strBytes "\r\n"), some (strBytes "+CMS ERROR: 305\r\n")] [] =
      .ok (strBytes "+CMS ERROR: 305\n") := by
  constructor <;> rfl

/-- C1 (amended): a terminal-error line — any of `ERROR`, `+CME ERROR`
or `+CMS ERROR` — terminates the transaction, but `readResponse` returns
the accumulated response *containing the raw error line* as a successful
(`nil`-error) body; callers must inspect the body themselves.  Stated
for both variants: a chunk whose accumulation contains any of
`\r\nERROR\r\n`, `\r\n+CME ERROR`, `\r\n+CMS ERROR` (chunk variant),
resp. a line starting with `ERROR`, `+CME ERROR` or `+CMS ERROR` (line
variant), makes the call return `ok` at once. -/
theorem readResponse_error_line_returns_ok_body :
    (∀ (fuel : Nat) (c acc : List Nat) (rest : List ReadChunk),
      c ≠ [] →
      (goContains (acc ++ c) (strBytes "\r\nERROR\r\n") ∨
       goContains (acc ++ c) (strBytes "\r\n+CME ERROR") ∨
       goContains (acc ++ c) (strBytes "\r\n+CMS ERROR")) →
      readResponseChunks (fuel + 1) (ReadChunk.chunk c :: rest) acc = .ok (acc ++ c)) ∧
    (∀ (fuel : Nat) (line acc : List Nat) (rest : List (Option (List Nat))),
      (goHasPrefix (goTrimSpace line) (strBytes "ERROR") ∨
       goHasPrefix (goTrimSpace line) (strBytes "+CME ERROR") ∨
       goHasPrefix (goTrimSpace line) (strBytes "+CMS ERROR")) →
      readResponseLines (fuel + 1) (some line :: rest) acc =
        .ok (acc ++ goTrimSpace line ++ [10])) := by
  constructor
  · intro fuel c acc rest hc herr
    simp only [readResponseChunks]
    rw [if_pos (by simpa using List.length_pos.mpr hc)]
    rcases herr with h | h | h
    · rw [if_pos (Or.inr (Or.inl h))]
    · rw [if_pos (Or.inr (Or.inr (Or.inl h)))]
    · rw [if_pos (Or.inr (Or.inr (Or.inr h)))]
  · intro fuel line acc rest herr
    have hne : goTrimSpace line ≠ [] := by
      intro h0
      rw [h0] at herr
      unfold goHasPrefix at herr
      rcases herr with h | h | h <;> rw [List.prefix_nil] at h <;>
        exact absurd h (by decide)
    simp only [readResponseLines]
    rcases herr with h | h | h
    · rw [if_pos hne, if_pos (Or.inr (Or.inl h))]
    · rw [if_pos hne, if_pos (Or.inr (Or.inr (Or.inl h)))]
    · rw [if_pos hne, if_pos (Or.inr (Or.inr (Or.inr h)))]

/-- C1 (amended) witness: plain `ERROR`, `+CME ERROR: 10` and
`+CMS ERROR: 301` instances through both variants. -/
theorem readResponse_error_line_returns_ok_body_witness :
    readResponseChunks 10 [ReadChunk.chunk (strBytes "\r\nERROR\r\n")] [] =
      .ok ([] ++ strBytes "\r\nERROR\r\n") ∧
    readResponseChunks 10 [ReadChunk.chunk (strBytes "\r\n+CME ERROR: 10\r\n")] [] =
      .ok ([] ++ strBytes "\r\n+CME ERROR: 10\r\n") ∧
    readResponseChunks 10 [ReadChunk.chunk (strBytes "\r\n+CMS ERROR: 301\r\n")] [] =
      .ok ([] ++ strBytes "\r\n+CMS ERROR: 301\r\n") ∧
    readResponseLines 10 [some (strBytes "ERROR\r\n")] [] =
      .ok ([] ++ goTrimSpace (strBytes "ERROR\r\n") ++ [10]) ∧
    readResponseLines 10 [some (strBytes "+CME ERROR: 10\r\n")] [] =
      .ok ([] ++ goTrimSpace (strBytes "+CME ERROR: 10\r\n") ++ [10]) ∧
    readResponseLines 10 [some (strBytes "+CMS ERROR: 301\r\n")] [] =
      .ok ([] ++ goTrimSpace (strBytes "+CMS ERROR: 301\r\n") ++ [10]) :=
  ⟨readResponse_error_line_returns_ok_body.1 9 _ [] _ (by decide) (by decide),
   readResponse_error_line_returns_ok_body.1 9 _ [] _ (by decide) (by decide),
   readResponse_error_line_returns_ok_body.1 9 _ [] _ (by decide) (by decide),
   readResponse_error_line_returns_ok_body.2 9 _ [] _ (by decide),
   readResponse_error_line_returns_ok_body.2 9 _ [] _ (by decide),
   readResponse_error_line_returns_ok_body.2 9 _ [] _ (by decide)⟩

/-! ## Timeout behaviour of `readResponse` (C3) -/

theorem readResponseChunks_no_data (acc : List Nat)
    (hOK : ¬ goContains acc (strBytes "OK"))
    (hERR : ¬ goContains acc (strBytes "ERROR")) :
    ∀ (fuel : Nat) (reads : List ReadChunk),
      (∀ r ∈ reads, r = ReadChunk.err ∨ r = ReadChunk.chunk []) →
      readResponseChunks fuel reads acc =
        if acc = [] then .error "timeout waiting for response" else .ok acc := by
  intro fuel
  induction fuel with
  | zero => intro reads _; rfl
  | succ n ih =>
    intro reads hreads
    have hcond : ¬ (acc ≠ [] ∧ (goContains acc (strBytes "OK") ∨
        goContains acc (strBytes "ERROR"))) := by
      rintro ⟨-, h | h⟩
      exacts [hOK h, hERR h]
    cases reads with
    | nil =>
      simp only [readResponseChunks]
      rw [if_neg hcond]
      exact ih [] (by simp)
    | cons r rest =>
      rcases hreads r (by simp) with rfl | rfl
      · simp only [readResponseChunks]
        rw [if_neg hcond]
        exact ih rest (fun x hx => hreads x (List.mem_cons_of_mem _ hx))
      · simp only [readResponseChunks]
        rw [if_neg (by simp)]
        exact ih rest (fun x hx => hreads x (List.mem_cons_of_mem _ hx))

theorem readResponseLines_no_data (acc : List Nat)
    (hOK : ¬ goContains acc (strBytes "OK"))
    (hERR : ¬ goContains acc (strBytes "ERROR")) :
    ∀ (fuel : Nat) (reads : List (Option (List Nat))),
      (∀ r ∈ reads, ∀ l, r = some l → goTrimSpace l = []) →
      readResponseLines fuel reads acc =
        if acc = [] then .error "timeout waiting for response" else .ok acc := by
  intro fuel
  induction fuel with
  | zero => intro reads _; rfl
  | succ n ih =>
    intro reads hreads
    have h1 : ¬ (acc ≠ [] ∧ goContains acc (strBytes "OK")) := by
      rintro ⟨-, h⟩; exact hOK h
    have h2 : ¬ (acc ≠ [] ∧ goContains acc (strBytes "ERROR")) := by
      rintro ⟨-, h⟩; exact hERR h
    cases reads with
    | nil =>
      simp only [readResponseLines]
      rw [if_neg h1, if_neg h2]
      exact ih [] (by simp)
    | cons r rest =>
      cases r with
      | none =>
        simp only [readResponseLines]
        rw [if_neg h1, if_neg h2]
        exact ih rest (fun x hx => hreads x (List.mem_cons_of_mem _ hx))
      | some line =>
        have hline : goTrimSpace line = [] := hreads (some line) (by simp) line rfl
        simp only [readResponseLines]
        rw [hline, if_neg (by simp)]
        exact ih rest (fun x hx => hreads x (List.mem_cons_of_mem _ hx))

/-- C3: for every `readResponse` call (both variants): if the wall-clock
timeout elapses with nothing accumulated — no read ever delivers usable
data — the call fails with the `Timeout` error; if some data accumulated
(here: one data read, containing neither `OK` nor `ERROR` so that no
terminator is recognised) and nothing more arrives before the timeout,
the accumulated data is returned as a successful body. -/
theorem readResponse_timeout_behaviour :
    (∀ (fuel : Nat) (reads : List ReadChunk),
      (∀ r ∈ reads, r = ReadChunk.err ∨ r = ReadChunk.chunk []) →
      readResponseChunks fuel reads [] = .error "timeout waiting for response") ∧
    (∀ (fuel : Nat) (c : List Nat) (rest : List ReadChunk),
      c ≠ [] → ¬ goContains c (strBytes "OK") → ¬ goContains c (strBytes "ERROR") →
      (∀ r ∈ rest, r = ReadChunk.err ∨ r = ReadChunk.chunk []) →
      readResponseChunks (fuel + 1) (ReadChunk.chunk c :: rest) [] = .ok c) ∧
    (∀ (fuel : Nat) (reads : List (Option (List Nat))),
      (∀ r ∈ reads, ∀ l, r = some l → goTrimSpace l = []) →
      readResponseLines fuel reads [] = .error "timeout waiting for response") ∧
    (∀ (fuel : Nat) (line : List Nat) (rest : List (Option (List Nat))),
      goTrimSpace line ≠ [] →
      ¬ goContains (goTrimSpace line ++ [10]) (strBytes "OK") →
      ¬ goContains (goTrimSpace line ++ [10]) (strBytes "ERROR") →
      (∀ r ∈ rest, ∀ l, r = some l → goTrimSpace l = []) →
      readResponseLines (fuel + 1) (some line :: rest) [] =
        .ok (goTrimSpace line ++ [10])) := by
  have hOKnil : ¬ goContains [] (strBytes "OK") := by decide
  have hERRnil : ¬ goContains [] (strBytes "ERROR") := by decide
  refine ⟨fun fuel reads h => ?_, fun fuel c rest hc hOK hERR hrest => ?_,
    fun fuel reads h => ?_, fun fuel line rest hne hOK hERR hrest => ?_⟩
  · rw [readResponseChunks_no_data [] hOKnil hERRnil fuel reads h]; rfl
  · simp only [readResponseChunks]
    rw [if_pos (by simpa using List.length_pos.mpr hc)]
    have hsub1 : goContains (strBytes "\r\nOK\r\n") (strBytes "OK") := by decide
    have hsub2 : goContains (strBytes "\r\nERROR\r\n") (strBytes "ERROR") := by decide
    have hsub3 : goContains (strBytes "\r\n+CME ERROR") (strBytes "ERROR") := by decide
    have hsub4 : goContains (strBytes "\r\n+CMS ERROR") (strBytes "ERROR") := by decide
    rw [List.nil_append,
      if_neg (by
        rintro (h | h | h | h)
        exacts [hOK (hsub1.trans h), hERR (hsub2.trans h),
          hERR (hsub3.trans h), hERR (hsub4.trans h)]),
      readResponseChunks_no_data c hOK hERR fuel rest hrest, if_neg hc]
  · rw [readResponseLines_no_data [] hOKnil hERRnil fuel reads h]; rfl
  · simp only [readResponseLines]
    have hOKl : ¬ goContains (goTrimSpace line) (strBytes "OK") := fun h =>
      hOK (h.trans (List.prefix_append _ _).isInfix)
    have hERRl : ¬ goContains (goTrimSpace line) (strBytes "ERROR") := fun h =>
      hERR (h.trans (List.prefix_append _ _).isInfix)
    have hsub1 : goContains (strBytes "OK") (strBytes "OK") := by decide
    have hsub2 : goContains (strBytes "ERROR") (strBytes "ERROR") := by decide
    have hsub3 : goContains (strBytes "+CME ERROR") (strBytes "ERROR") := by decide
    have hsub4 : goContains (strBytes "+CMS ERROR") (strBytes "ERROR") := by decide
    rw [if_pos hne,
      if_neg (by
        rintro (h | h | h | h)
        exacts [hOKl (hsub1.trans h.isInfix), hERRl (hsub2.trans h.isInfix),
          hERRl (hsub3.trans h.isInfix), hERRl (hsub4.trans h.isInfix)]),
      List.nil_append,
      readResponseLines_no_data _ hOK hERR fuel rest hrest, if_neg (by simp)]

/-- C3 witness: a silent port times out with `Timeout`; a single
unterminated data line is returned as a successful body, in both
variants. -/
theorem readResponse_timeout_behaviour_witness :
    readResponseChunks 5 [ReadChunk.err] [] = .error "timeout waiting for response" ∧
    readResponseChunks 5 [ReadChunk.chunk (strBytes "+CSQ: 20,0")] [] =
      .ok (strBytes "+CSQ: 20,0") ∧
    readResponseLines 5 [none] [] = .error "timeout waiting for response" ∧
    readResponseLines 5 [some (strBytes "+CSQ: 20,0\r\n")] [] =
      .ok (goTrimSpace (strBytes "+CSQ: 20,0\r\n") ++ [10]) :=
  ⟨readResponse_timeout_behaviour.1 5 _ (by decide),
   readResponse_timeout_behaviour.2.1 4 _ [] (by decide) (by decide) (by decide) (by simp),
   readResponse_timeout_behaviour.2.2.1 5 _ (by rintro r hr l hl; simp_all),
   readResponse_timeout_behaviour.2.2.2 4 _ [] (by decide) (by decide) (by decide) (by simp)⟩

/-! ## Lemmas for `parseGSMTime` (C7) -/

theorem goSplit_ne_nil (sep : Nat) (l : List Nat) : goSplit sep l ≠ [] := by
  cases l with
  | nil => simp [goSplit]
  | cons c t =>
    simp only [goSplit]
    cases goSplit sep t with
    | nil => split_ifs <;> simp
    | cons h t' => split_ifs <;> simp

theorem goSplit_no_sep (sep : Nat) (l : List Nat) (h : ∀ c ∈ l, c ≠ sep) :
    goSplit sep l = [l] := by
  induction l with
  | nil => rfl
  | cons c t ih =>
    simp only [goSplit, ih (fun x hx => h x (List.mem_cons_of_mem _ hx)),
      if_neg (h c (by simp))]

theorem goSplit_append (sep : Nat) (a b : List Nat) (h : ∀ c ∈ a, c ≠ sep) :
    goSplit sep (a ++ sep :: b) = a :: goSplit sep b := by
  induction a with
  | nil =>
    simp only [List.nil_append, goSplit]
    cases hb : goSplit sep b with
    | nil => exact absurd hb (goSplit_ne_nil sep b)
    | cons x t => simp
  | cons c a' ih =>
    simp only [List.cons_append, goSplit, List.append_eq,
      ih (fun x hx => h x (List.mem_cons_of_mem _ hx)), if_neg (h c (by simp))]

theorem atoiDigits_digit (acc c : Nat) (h : 48 ≤ c ∧ c ≤ 57) (rest : List Nat) :
    atoiDigits acc (c :: rest) = atoiDigits (acc * 10 + (c - 48)) rest := by
  simp only [atoiDigits, if_pos h]

theorem atoiDigits_nondigit (acc c : Nat) (h : ¬ (48 ≤ c ∧ c ≤ 57)) (rest : List Nat) :
    atoiDigits acc (c :: rest) = none := by
  simp only [atoiDigits, if_neg h]

theorem goAtoi_digit (c : Nat) (h : 48 ≤ c ∧ c ≤ 57) (rest : List Nat) :
    goAtoi (c :: rest) = atoiDigits (c - 48) rest := by
  simp only [goAtoi, if_neg (by omega : ¬ c = 43), if_pos h]

theorem atoiOr0_two_digits (c1 c2 : Nat) (h1 : 48 ≤ c1 ∧ c1 ≤ 57) (h2 : 48 ≤ c2 ∧ c2 ≤ 57) :
    atoiOr0 [c1, c2] = (c1 - 48) * 10 + (c2 - 48) := by
  unfold atoiOr0
  rw [goAtoi_digit c1 h1, atoiDigits_digit _ c2 h2]
  simp [atoiDigits]

theorem atoiOr0_year (y1 y2 : Nat) (h1 : 48 ≤ y1 ∧ y1 ≤ 57) (h2 : 48 ≤ y2 ∧ y2 ≤ 57) :
    atoiOr0 (strBytes "20" ++ [y1, y2]) = 2000 + ((y1 - 48) * 10 + (y2 - 48)) := by
  have he : strBytes "20" ++ [y1, y2] = [50, 48, y1, y2] := rfl
  rw [he]
  unfold atoiOr0
  rw [goAtoi_digit 50 (by omega), atoiDigits_digit _ 48 (by omega),
    atoiDigits_digit _ y1 h1, atoiDigits_digit _ y2 h2]
  simp only [atoiDigits, Option.getD_some]
  omega

theorem atoiOr0_minus_tail (s1 s2 z1 z2 : Nat)
    (h1 : 48 ≤ s1 ∧ s1 ≤ 57) (h2 : 48 ≤ s2 ∧ s2 ≤ 57) :
    atoiOr0 [s1, s2, 45, z1, z2] = 0 := by
  unfold atoiOr0
  rw [goAtoi_digit s1 h1, atoiDigits_digit _ s2 h2, atoiDigits_nondigit _ 45 (by omega)]
  rfl

/-- C7 (counterexample): for a timestamp with a `-` zone sign the
seconds are lost: `parseGSMTime "20/01/01,12:00:45-12"` yields second 0
instead of second 45, because the time half is split only on `"+"` and
`strconv.Atoi "45-12"` fails, the error being ignored. -/
theorem parseGSMTime_minus_zone_loses_seconds :
    parseGSMTime (strBytes "20/01/01,12:00:45-12") ≠
      ({ year := 2020, month := 1, day := 1, hour := 12, minute := 0, second := 45 } : GoTime) ∧
    parseGSMTime (strBytes "20/01/01,12:00:45-12") =
      { year := 2020, month := 1, day := 1, hour := 12, minute := 0, second := 0 } := by
  constructor <;> decide

theorem parseGSMTime_eq (t Y M D T : List Nat) (trest : List (List Nat)) (H I S : List Nat)
    (hparts : (goSplit 44 t).length = 2)
    (hdate : goSplit 47 ((goSplit 44 t).getD 0 []) = [Y, M, D])
    (htime : goSplit 43 ((goSplit 44 t).getD 1 []) = T :: trest)
    (hcomp : goSplit 58 ((goSplit 43 ((goSplit 44 t).getD 1 [])).getD 0 []) = [H, I, S]) :
    parseGSMTime t =
      { year := atoiOr0 (strBytes "20" ++ Y), month := atoiOr0 M, day := atoiOr0 D,
        hour := atoiOr0 H, minute := atoiOr0 I, second := atoiOr0 S } := by
  simp only [parseGSMTime]
  rw [hcomp, htime, hdate, hparts]
  rw [if_neg (by norm_num : ¬ (2 : Nat) < 2),
    if_neg (by simp : ¬ ([Y, M, D].length < 3)),
    if_neg (by simp only [List.length_cons]; omega : ¬ ((T :: trest).length < 1)),
    if_neg (by simp : ¬ ([H, I, S].length < 3))]
  rfl

/-- C7 (amended): for a well-formed `"YY/MM/DD,hh:mm:ss+zz"` timestamp
(two-digit numeric fields) `parseGSMTime` returns year `2000+YY` and the
given month, day, hour, minute and second, with the quarter-hour zone
offset ignored (the instant is interpreted as UTC).  With a `-` zone
sign, however, the `-zz` suffix stays attached to the seconds field, its
`Atoi` fails, and the *second is 0* (the other components are kept).  A
string failing any structural split check — fewer than 2 comma-separated
parts, fewer than 3 slash-separated date fields, or fewer than 3
colon-separated time components — yields the zero instant
`time.Time{}`; and whenever the structural splits succeed, every
component is converted with `strconv.Atoi` with the error ignored, so an
unparseable component yields 0 for that component (never the zero
instant). -/
theorem parseGSMTime_spec :
    (∀ y1 y2 m1 m2 d1 d2 g1 g2 i1 i2 s1 s2 z1 z2 : Nat,
      (∀ c ∈ [y1, y2, m1, m2, d1, d2, g1, g2, i1, i2, s1, s2, z1, z2],
        48 ≤ c ∧ c ≤ 57) →
      parseGSMTime [y1, y2, 47, m1, m2, 47, d1, d2, 44,
          g1, g2, 58, i1, i2, 58, s1, s2, 43, z1, z2] =
        { year := 2000 + ((y1 - 48) * 10 + (y2 - 48)),
          month := (m1 - 48) * 10 + (m2 - 48),
          day := (d1 - 48) * 10 + (d2 - 48),
          hour := (g1 - 48) * 10 + (g2 - 48),
          minute := (i1 - 48) * 10 + (i2 - 48),
          second := (s1 - 48) * 10 + (s2 - 48) } ∧
      parseGSMTime [y1, y2, 47, m1, m2, 47, d1, d2, 44,
          g1, g2, 58, i1, i2, 58, s1, s2, 45, z1, z2] =
        { year := 2000 + ((y1 - 48) * 10 + (y2 - 48)),
          month := (m1 - 48) * 10 + (m2 - 48),
          day := (d1 - 48) * 10 + (d2 - 48),
          hour := (g1 - 48) * 10 + (g2 - 48),
          minute := (i1 - 48) * 10 + (i2 - 48),
          second := 0 }) ∧
    (∀ timeStr : List Nat,
      ((goSplit 44 timeStr).length < 2 → parseGSMTime timeStr = goTimeZero) ∧
      ((goSplit 47 ((goSplit 44 timeStr).getD 0 [])).length < 3 →
        parseGSMTime timeStr = goTimeZero) ∧
      ((goSplit 58 ((goSplit 43 ((goSplit 44 timeStr).getD 1 [])).getD 0 [])).length < 3 →
        parseGSMTime timeStr = goTimeZero)) ∧
    (∀ (t Y M D T : List Nat) (trest : List (List Nat)) (H I S : List Nat),
      (goSplit 44 t).length = 2 →
      goSplit 47 ((goSplit 44 t).getD 0 []) = [Y, M, D] →
      goSplit 43 ((goSplit 44 t).getD 1 []) = T :: trest →
      goSplit 58 ((goSplit 43 ((goSplit 44 t).getD 1 [])).getD 0 []) = [H, I, S] →
      parseGSMTime t =
        { year := atoiOr0 (strBytes "20" ++ Y), month := atoiOr0 M, day := atoiOr0 D,
          hour := atoiOr0 H, minute := atoiOr0 I, second := atoiOr0 S }) := by
  refine ⟨?_, ?_, ?_⟩
  · intro y1 y2 m1 m2 d1 d2 g1 g2 i1 i2 s1 s2 z1 z2 hd
    have hy1 := hd y1 (by simp); have hy2 := hd y2 (by simp)
    have hm1 := hd m1 (by simp); have hm2 := hd m2 (by simp)
    have hd1 := hd d1 (by simp); have hd2 := hd d2 (by simp)
    have hg1 := hd g1 (by simp); have hg2 := hd g2 (by simp)
    have hi1 := hd i1 (by simp); have hi2 := hd i2 (by simp)
    have hs1 := hd s1 (by simp); have hs2 := hd s2 (by simp)
    have hz1 := hd z1 (by simp); have hz2 := hd z2 (by simp)
    have edate : goSplit 47 [y1, y2, 47, m1, m2, 47, d1, d2] =
        [[y1, y2], [m1, m2], [d1, d2]] := by
      have ha := goSplit_append 47 [m1, m2] [d1, d2]
        (by intro c hc; fin_cases hc <;> omega)
      rw [goSplit_no_sep 47 [d1, d2] (by intro c hc; fin_cases hc <;> omega)] at ha
      have hb := goSplit_append 47 [y1, y2] ([m1, m2] ++ 47 :: [d1, d2])
        (by intro c hc; fin_cases hc <;> omega)
      rw [ha] at hb
      exact hb
    constructor
    · have e1 : goSplit 44 [y1, y2, 47, m1, m2, 47, d1, d2, 44,
          g1, g2, 58, i1, i2, 58, s1, s2, 43, z1, z2] =
          [[y1, y2, 47, m1, m2, 47, d1, d2], [g1, g2, 58, i1, i2, 58, s1, s2, 43, z1, z2]] := by
        have hb := goSplit_append 44 [y1, y2, 47, m1, m2, 47, d1, d2]
          [g1, g2, 58, i1, i2, 58, s1, s2, 43, z1, z2]
          (by intro c hc; fin_cases hc <;> omega)
        rw [goSplit_no_sep 44 [g1, g2, 58, i1, i2, 58, s1, s2, 43, z1, z2]
          (by intro c hc; fin_cases hc <;> omega)] at hb
        exact hb
      have e3 : goSplit 43 [g1, g2, 58, i1, i2, 58, s1, s2, 43, z1, z2] =
          [[g1, g2, 58, i1, i2, 58, s1, s2], [z1, z2]] := by
        have hb := goSplit_append 43 [g1, g2, 58, i1, i2, 58, s1, s2] [z1, z2]
          (by intro c hc; fin_cases hc <;> omega)
        rw [goSplit_no_sep 43 [z1, z2] (by intro c hc; fin_cases hc <;> omega)] at hb
        exact hb
      have e4 : goSplit 58 [g1, g2, 58, i1, i2, 58, s1, s2] =
          [[g1, g2], [i1, i2], [s1, s2]] := by
        have ha := goSplit_append 58 [i1, i2] [s1, s2]
          (by intro c hc; fin_cases hc <;> omega)
        rw [goSplit_no_sep 58 [s1, s2] (by intro c hc; fin_cases hc <;> omega)] at ha
        have hb := goSplit_append 58 [g1, g2] ([i1, i2] ++ 58 :: [s1, s2])
          (by intro c hc; fin_cases hc <;> omega)
        rw [ha] at hb
        exact hb
      rw [parseGSMTime_eq _ [y1, y2] [m1, m2] [d1, d2] [g1, g2, 58, i1, i2, 58, s1, s2]
        [[z1, z2]] [g1, g2] [i1, i2] [s1, s2]
        (by rw [e1]; rfl) (by rw [e1]; exact edate) (by rw [e1]; exact e3)
        (by rw [e1]
            show goSplit 58 ((goSplit 43
              [g1, g2, 58, i1, i2, 58, s1, s2, 43, z1, z2]).getD 0 []) = _
            rw [e3]
            exact e4)]
      rw [atoiOr0_year y1 y2 hy1 hy2, atoiOr0_two_digits m1 m2 hm1 hm2,
        atoiOr0_two_digits d1 d2 hd1 hd2, atoiOr0_two_digits g1 g2 hg1 hg2,
        atoiOr0_two_digits i1 i2 hi1 hi2, atoiOr0_two_digits s1 s2 hs1 hs2]
    · have e1 : goSplit 44 [y1, y2, 47, m1, m2, 47, d1, d2, 44,
          g1, g2, 58, i1, i2, 58, s1, s2, 45, z1, z2] =
          [[y1, y2, 47, m1, m2, 47, d1, d2], [g1, g2, 58, i1, i2, 58, s1, s2, 45, z1, z2]] := by
        have hb := goSplit_append 44 [y1, y2, 47, m1, m2, 47, d1, d2]
          [g1, g2, 58, i1, i2, 58, s1, s2, 45, z1, z2]
          (by intro c hc; fin_cases hc <;> omega)
        rw [goSplit_no_sep 44 [g1, g2, 58, i1, i2, 58, s1, s2, 45, z1, z2]
          (by intro c hc; fin_cases hc <;> omega)] at hb
        exact hb
      have e3 : goSplit 43 [g1, g2, 58, i1, i2, 58, s1, s2, 45, z1, z2] =
          [[g1, g2, 58, i1, i2, 58, s1, s2, 45, z1, z2]] :=
        goSplit_no_sep 43 _ (by intro c hc; fin_cases hc <;> omega)
      have e4 : goSplit 58 [g1, g2, 58, i1, i2, 58, s1, s2, 45, z1, z2] =
          [[g1, g2], [i1, i2], [s1, s2, 45, z1, z2]] := by
        have ha := goSplit_append 58 [i1, i2] [s1, s2, 45, z1, z2]
          (by intro c hc; fin_cases hc <;> omega)
        rw [goSplit_no_sep 58 [s1, s2, 45, z1, z2]
          (by intro c hc; fin_cases hc <;> omega)] at ha
        have hb := goSplit_append 58 [g1, g2] ([i1, i2] ++ 58 :: [s1, s2, 45, z1, z2])
          (by intro c hc; fin_cases hc <;> omega)
        rw [ha] at hb
        exact hb
      rw [parseGSMTime_eq _ [y1, y2] [m1, m2] [d1, d2]
        [g1, g2, 58, i1, i2, 58, s1, s2, 45, z1, z2]
        [] [g1, g2] [i1, i2] [s1, s2, 45, z1, z2]
        (by rw [e1]; rfl) (by rw [e1]; exact edate) (by rw [e1]; exact e3)
        (by rw [e1]
            show goSplit 58 ((goSplit 43
              [g1, g2, 58, i1, i2, 58, s1, s2, 45, z1, z2]).getD 0 []) = _
            rw [e3]
            exact e4)]
      rw [atoiOr0_year y1 y2 hy1 hy2, atoiOr0_two_digits m1 m2 hm1 hm2,
        atoiOr0_two_digits d1 d2 hd1 hd2, atoiOr0_two_digits g1 g2 hg1 hg2,
        atoiOr0_two_digits i1 i2 hi1 hi2, atoiOr0_minus_tail s1 s2 z1 z2 hs1 hs2]
  · intro timeStr
    refine ⟨fun h1 => ?_, fun h2 => ?_, fun h3 => ?_⟩
    · simp only [parseGSMTime]
      rw [if_pos h1]
    · by_cases h1 : (goSplit 44 timeStr).length < 2
      · simp only [parseGSMTime]
        rw [if_pos h1]
      · simp only [parseGSMTime]
        rw [if_neg h1, if_pos h2]
    · by_cases h1 : (goSplit 44 timeStr).length < 2
      · simp only [parseGSMTime]
        rw [if_pos h1]
      · by_cases h2 : (goSplit 47 ((goSplit 44 timeStr).getD 0 [])).length < 3
        · simp only [parseGSMTime]
          rw [if_neg h1, if_pos h2]
        · by_cases h4 : (goSplit 43 ((goSplit 44 timeStr).getD 1 [])).length < 1
          · simp only [parseGSMTime]
            rw [if_neg h1, if_neg h2, if_pos h4]
          · simp only [parseGSMTime]
            rw [if_neg h1, if_neg h2, if_neg h4, if_pos h3]
  · exact fun t Y M D T trest H I S h1 h2 h3 h4 =>
      parseGSMTime_eq t Y M D T trest H I S h1 h2 h3 h4

/-- C7 (amended) witness: `"24/05/17,13:05:59+08"` parses in full;
`"24/05/17,13:05:59-08"` parses with second 0; `"garbage"` (no comma),
`"20/01,12:00:00+12"` (two date fields) and `"20/01/01,12:00+12"` (two
time components) each yield the zero instant; `"2X/01/01,12:00:00+12"`
parses structurally, the year `Atoi` fails and that component alone is
0. -/
theorem parseGSMTime_spec_witness :
    parseGSMTime (strBytes "24/05/17,13:05:59+08") =
      { year := 2024, month := 5, day := 17, hour := 13, minute := 5, second := 59 } ∧
    parseGSMTime (strBytes "24/05/17,13:05:59-08") =
      { year := 2024, month := 5, day := 17, hour := 13, minute := 5, second := 0 } ∧
    parseGSMTime (strBytes "garbage") = goTimeZero ∧
    parseGSMTime (strBytes "20/01,12:00:00+12") = goTimeZero ∧
    parseGSMTime (strBytes "20/01/01,12:00+12") = goTimeZero ∧
    parseGSMTime (strBytes "2X/01/01,12:00:00+12") =
      { year := 0, month := 1, day := 1, hour := 12, minute := 0, second := 0 } := by
  have h := parseGSMTime_spec.1 50 52 48 53 49 55 49 51 48 53 53 57 48 56 (by decide)
  have h3 := (parseGSMTime_spec.2.1 (strBytes "garbage")).1 (by decide)
  have h4 := (parseGSMTime_spec.2.1 (strBytes "20/01,12:00:00+12")).2.1 (by decide)
  have h5 := (parseGSMTime_spec.2.1 (strBytes "20/01/01,12:00+12")).2.2 (by decide)
  have h6 := parseGSMTime_spec.2.2 (strBytes "2X/01/01,12:00:00+12")
    (strBytes "2X") (strBytes "01") (strBytes "01") (strBytes "12:00:00")
    [strBytes "12"] (strBytes "12") (strBytes "00") (strBytes "00")
    (by decide) (by decide) (by decide) (by decide)
  exact ⟨by rw [show strBytes "24/05/17,13:05:59+08" =
      [50, 52, 47, 48, 53, 47, 49, 55, 44, 49, 51, 58, 48, 53, 58, 53, 57, 43, 48, 56]
      from rfl, h.1], by rw [show strBytes "24/05/17,13:05:59-08" =
      [50, 52, 47, 48, 53, 47, 49, 55, 44, 49, 51, 58, 48, 53, 58, 53, 57, 45, 48, 56]
      from rfl, h.2], h3, h4, h5, by rw [h6]; decide⟩

/-! ## Lemmas for `splitText` (C10) -/

theorem dropWhile_length_le (p : Nat → Bool) (l : List Nat) :
    (l.dropWhile p).length ≤ l.length := by
  induction l with
  | nil => simp
  | cons a t ih =>
    rw [List.dropWhile_cons]
    split_ifs
    · simp only [List.length_cons]; omega
    · simp

theorem goTrimSpace_length (l : List Nat) : (goTrimSpace l).length ≤ l.length := by
  unfold goTrimSpace
  have h1 := dropWhile_length_le isGoSpace l
  have h2 := dropWhile_length_le isGoSpace (l.dropWhile isGoSpace).reverse
  simp only [List.length_reverse] at *
  omega

theorem findSplitAt_bounds (text : List Nat) (maxLen : Nat) (h1 : 1 ≤ maxLen) :
    ∀ i : Nat, i < maxLen →
      1 ≤ findSplitAt text maxLen i ∧ findSplitAt text maxLen i ≤ maxLen := by
  intro i
  induction i with
  | zero => intro _; exact ⟨h1, le_rfl⟩
  | succ n ih =>
    intro h2
    rw [findSplitAt]
    split_ifs with hcond hspace
    · exact ⟨by omega, by omega⟩
    · exact ih (by omega)
    · exact ⟨h1, le_rfl⟩

theorem splitTextGo_term : ∀ (fuel : Nat) (text : List Nat) (maxLen : Nat),
    1 ≤ maxLen → text.length < fuel →
    ∃ parts, splitTextGo fuel text maxLen = some parts ∧
      ∀ p ∈ parts, p.length ≤ maxLen := by
  intro fuel
  induction fuel with
  | zero => intro text maxLen _ h2; exact absurd h2 (by omega)
  | succ n ih =>
    intro text maxLen h1 h2
    by_cases he : text = []
    · exact ⟨[], by simp [splitTextGo, he], by simp⟩
    · by_cases hlen : text.length ≤ maxLen
      · refine ⟨[text], ?_, ?_⟩
        · simp only [splitTextGo, if_neg he, if_pos hlen]
        · intro p hp
          simp only [List.mem_singleton] at hp
          exact hp ▸ hlen
      · have hpos : text.length ≠ 0 := fun h0 => he (List.length_eq_zero.mp h0)
        have hb := findSplitAt_bounds text maxLen h1 (maxLen - 1) (by omega)
        have hdroplen : (text.drop (findSplitAt text maxLen (maxLen - 1))).length =
            text.length - findSplitAt text maxLen (maxLen - 1) := List.length_drop _ _
        have htrim := goTrimSpace_length (text.drop (findSplitAt text maxLen (maxLen - 1)))
        obtain ⟨ps, hps, hbound⟩ :=
          ih (goTrimSpace (text.drop (findSplitAt text maxLen (maxLen - 1)))) maxLen h1
            (by omega)
        refine ⟨text.take (findSplitAt text maxLen (maxLen - 1)) :: ps, ?_, ?_⟩
        · simp only [splitTextGo, if_neg he, if_neg hlen]
          rw [hps]
          rfl
        · intro p hp
          rcases List.mem_cons.mp hp with rfl | hmem
          · rw [List.length_take]
            omega
          · exact hbound p hmem

/-- C10: for every text and every `maxLen ≥ 1`, `splitText` terminates
(fuel linear in the text length suffices) and every chunk has length at
most `maxLen`; `SendLongSMS` invokes it with `maxLen = 160 - 10 = 150`
for any text longer than 160 bytes, and that invocation terminates with
all chunks at most 150 bytes; with `maxLen = 0` and non-empty text the
loop never terminates (no amount of fuel finishes), but that argument is
never used. -/
theorem splitText_spec :
    (∀ (text : List Nat) (maxLen : Nat), 1 ≤ maxLen →
      ∃ parts, splitText text maxLen = some parts ∧ ∀ p ∈ parts, p.length ≤ maxLen) ∧
    (∀ text : List Nat, 160 < text.length →
      ∃ parts, splitText text 150 = some parts ∧
        SendLongSMSMessages text = some ((List.range parts.length).zip parts |>.map
          (fun p => partHeader (p.1 + 1) parts.length ++ p.2)) ∧
        ∀ p ∈ parts, p.length ≤ 150) ∧
    (∀ fuel : Nat, splitTextGo fuel (strBytes "ab") 0 = none) := by
  have main : ∀ (text : List Nat) (maxLen : Nat), 1 ≤ maxLen →
      ∃ parts, splitText text maxLen = some parts ∧ ∀ p ∈ parts, p.length ≤ maxLen :=
    fun text maxLen h1 => splitTextGo_term (text.length + 1) text maxLen h1 (by omega)
  refine ⟨main, fun text hlen => ?_, fun fuel => ?_⟩
  · obtain ⟨ps, hps, hb⟩ := main text 150 (by omega)
    refine ⟨ps, hps, ?_, hb⟩
    unfold SendLongSMSMessages
    rw [if_neg (by omega), show (160 - 10 : Nat) = 150 from rfl, hps]
    rfl
  · induction fuel with
    | zero => rfl
    | succ n ih =>
      show splitTextGo (n + 1) (strBytes "ab") 0 = none
      simp only [splitTextGo]
      rw [if_neg (by decide), if_neg (by decide),
        show goTrimSpace ((strBytes "ab").drop
          (findSplitAt (strBytes "ab") 0 (0 - 1))) = strBytes "ab" from rfl, ih]
      rfl

/-- C10 witness: `splitText` at `maxLen = 4`, a 161-byte `SendLongSMS`,
and the never-terminating `maxLen = 0` loop at fuel 3. -/
theorem splitText_spec_witness :
    (∃ parts, splitText (strBytes "hello world") 4 = some parts ∧
      ∀ p ∈ parts, p.length ≤ 4) ∧
    (∃ parts, splitText (List.replicate 161 97) 150 = some parts ∧
      SendLongSMSMessages (List.replicate 161 97) =
        some ((List.range parts.length).zip parts |>.map
          (fun p => partHeader (p.1 + 1) parts.length ++ p.2)) ∧
      ∀ p ∈ parts, p.length ≤ 150) ∧
    splitTextGo 3 (strBytes "ab") 0 = none :=
  ⟨splitText_spec.1 (strBytes "hello world") 4 (by decide),
   splitText_spec.2.1 (List.replicate 161 97) (by simp),
   splitText_spec.2.2 3⟩

/-! ## Trace lemmas for `SendSMS` (C2, C5) -/

theorem SendSMS_success_trace (number text r1 r2 resp : List Nat)
    (h : goContains resp (strBytes "OK")) :
    SendSMS number text (some r1) (some r2) (some resp) =
      ([PortAction.lock] ++ sendCommandTrace (strBytes "AT+CMGF=1") ++ [PortAction.unlock] ++
       ([PortAction.lock] ++ sendCommandTrace (if needsUCS2 text then strBytes "AT+CSCS=\"UCS2\""
          else strBytes "AT+CSCS=\"GSM\"") ++ [PortAction.unlock]) ++
       ([PortAction.lock,
         PortAction.write ((strBytes "AT+CMGS=\"" ++
           (if needsUCS2 text then EncodeUCS2 number else number) ++ [34]) ++ [13]),
         PortAction.sleepMs 100,
         PortAction.write ((if needsUCS2 text then EncodeUCS2 text else text) ++ [26]),
         PortAction.readResp] ++
        sendCommandTrace (strBytes "AT+CSCS=\"GSM\"") ++ [PortAction.unlock]), .ok ()) := by
  simp only [SendSMS]
  rw [if_pos h]
  simp [List.append_assoc]

/-- C2 (counterexample): the success trace of
`SendSMS "123" "Hi"`: between the phase-A write (`AT+CMGS="123"` +
`\r`, position 11) and the phase-B write (`Hi` + `0x1A`, position 13)
the only action is the fixed 100 ms sleep — the code never reads or
checks for the modem's `>` prompt token, refuting "waits for the modem's
prompt token before proceeding". -/
theorem SendSMS_no_prompt_wait :
    (SendSMS (strBytes "123") (strBytes "Hi") (some (strBytes "OK")) (some (strBytes "OK"))
        (some (strBytes "OK"))).1 =
      [PortAction.lock, PortAction.flush, PortAction.write (strBytes "AT+CMGF=1\r\n"),
       PortAction.readResp, PortAction.unlock,
       PortAction.lock, PortAction.flush, PortAction.write (strBytes "AT+CSCS=\"GSM\"\r\n"),
       PortAction.readResp, PortAction.unlock,
       PortAction.lock, PortAction.write (strBytes "AT+CMGS=\"123\"" ++ [13]),
       PortAction.sleepMs 100, PortAction.write (strBytes "Hi" ++ [26]),
       PortAction.readResp,
       PortAction.flush, PortAction.write (strBytes "AT+CSCS=\"GSM\"\r\n"),
       PortAction.readResp, PortAction.unlock] ∧
    (((SendSMS (strBytes "123") (strBytes "Hi") (some (strBytes "OK")) (some (strBytes "OK"))
        (some (strBytes "OK"))).1.drop 12).take 1 = [PortAction.sleepMs 100]) ∧
    PortAction.readResp ∉ [PortAction.sleepMs 100] := by
  refine ⟨by decide, by decide, by decide⟩

/-- C2 (amended): `SendSMS` is a two-phase transaction: phase A writes
`AT+CMGS="…"` terminated by `\r` alone (no `\n`), then *sleeps 100 ms*
(it does not read or wait for the prompt token), and phase B writes the
message body followed by the single byte `0x1A`; the modem mutex is
locked right before phase A and released only at the very end, after the
final read and the `AT+CSCS="GSM"` restore — i.e. it is held across both
phases. -/
theorem SendSMS_two_phase :
    ∀ (number text r1 r2 resp : List Nat), goContains resp (strBytes "OK") →
      ∃ pre, (SendSMS number text (some r1) (some r2) (some resp)).1 =
        pre ++ [PortAction.lock,
          PortAction.write ((strBytes "AT+CMGS=\"" ++
            (if needsUCS2 text then EncodeUCS2 number else number) ++ [34]) ++ [13]),
          PortAction.sleepMs 100,
          PortAction.write ((if needsUCS2 text then EncodeUCS2 text else text) ++ [26]),
          PortAction.readResp,
          PortAction.flush,
          PortAction.write (strBytes "AT+CSCS=\"GSM\"" ++ strBytes "\r\n"),
          PortAction.readResp,
          PortAction.unlock] := by
  intro number text r1 r2 resp h
  refine ⟨[PortAction.lock] ++ sendCommandTrace (strBytes "AT+CMGF=1") ++ [PortAction.unlock] ++
    ([PortAction.lock] ++ sendCommandTrace (if needsUCS2 text then strBytes "AT+CSCS=\"UCS2\""
        else strBytes "AT+CSCS=\"GSM\"") ++ [PortAction.unlock]), ?_⟩
  rw [SendSMS_success_trace number text r1 r2 resp h]
  simp [sendCommandTrace, List.append_assoc]

/-- C2 (amended) witness: the two-phase shape at `"123"`/`"Hi"`. -/
theorem SendSMS_two_phase_witness :
    ∃ pre, (SendSMS (strBytes "123") (strBytes "Hi") (some (strBytes "OK"))
        (some (strBytes "OK")) (some (strBytes "OK"))).1 =
      pre ++ [PortAction.lock,
        PortAction.write ((strBytes "AT+CMGS=\"" ++
          (if needsUCS2 (strBytes "Hi") then EncodeUCS2 (strBytes "123")
           else strBytes "123") ++ [34]) ++ [13]),
        PortAction.sleepMs 100,
        PortAction.write ((if needsUCS2 (strBytes "Hi") then EncodeUCS2 (strBytes "Hi")
          else strBytes "Hi") ++ [26]),
        PortAction.readResp,
        PortAction.flush,
        PortAction.write (strBytes "AT+CSCS=\"GSM\"" ++ strBytes "\r\n"),
        PortAction.readResp,
        PortAction.unlock] :=
  SendSMS_two_phase (strBytes "123") (strBytes "Hi") _ _ _ (by decide)

/-- C5: `SendSMS` selects UCS-2 iff some code point of the text exceeds
0x7F; `AT+CMGF=1` is always the first transaction; in the UCS-2 case the
trace contains `AT+CSCS="UCS2"`, the recipient number and the body are
both encoded through `EncodeUCS2`, and the final transaction before
unlocking restores `AT+CSCS="GSM"` after the body write; in the
ASCII-only case `AT+CSCS="GSM"` is issued directly (within the first two
transactions, before `AT+CMGS`). -/
theorem SendSMS_encoding_selection :
    ∀ (number text r1 r2 resp : List Nat), goContains resp (strBytes "OK") →
      (needsUCS2 text = true ↔ ∃ r ∈ text, 127 < r) ∧
      ((SendSMS number text (some r1) (some r2) (some resp)).1.take 5 =
        [PortAction.lock] ++ sendCommandTrace (strBytes "AT+CMGF=1") ++ [PortAction.unlock]) ∧
      (needsUCS2 text = true →
        ∃ pre, (SendSMS number text (some r1) (some r2) (some resp)).1 =
          pre ++ sendCommandTrace (strBytes "AT+CSCS=\"GSM\"") ++ [PortAction.unlock] ∧
          PortAction.write (strBytes "AT+CSCS=\"UCS2\"" ++ strBytes "\r\n") ∈ pre ∧
          PortAction.write ((strBytes "AT+CMGS=\"" ++ EncodeUCS2 number ++ [34]) ++ [13]) ∈ pre ∧
          PortAction.write (EncodeUCS2 text ++ [26]) ∈ pre) ∧
      (needsUCS2 text = false →
        PortAction.write (strBytes "AT+CSCS=\"GSM\"" ++ strBytes "\r\n") ∈
          (SendSMS number text (some r1) (some r2) (some resp)).1.take 10) := by
  intro number text r1 r2 resp h
  have htr := SendSMS_success_trace number text r1 r2 resp h
  refine ⟨?_, ?_, fun hU => ?_, fun hA => ?_⟩
  · simp [needsUCS2, List.any_eq_true]
  · rw [htr]; rfl
  · refine ⟨[PortAction.lock] ++ sendCommandTrace (strBytes "AT+CMGF=1") ++
      [PortAction.unlock] ++
      ([PortAction.lock] ++ sendCommandTrace (strBytes "AT+CSCS=\"UCS2\"") ++
        [PortAction.unlock]) ++
      [PortAction.lock,
       PortAction.write ((strBytes "AT+CMGS=\"" ++ EncodeUCS2 number ++ [34]) ++ [13]),
       PortAction.sleepMs 100,
       PortAction.write (EncodeUCS2 text ++ [26]),
       PortAction.readResp], ?_, ?_, ?_, ?_⟩
    · rw [htr]
      simp [hU, sendCommandTrace, List.append_assoc]
    · simp [sendCommandTrace]
    · simp [sendCommandTrace]
    · simp [sendCommandTrace]
  · rw [htr]
    simp [hA, sendCommandTrace]

/-- C5 witness: ASCII text `"Hi"` goes through `AT+CSCS="GSM"` with
`AT+CMGF=1` first; Cyrillic text `"Ж"` takes the UCS-2 path. -/
theorem SendSMS_encoding_selection_witness :
    ((SendSMS (strBytes "123") (strBytes "Hi") (some (strBytes "OK")) (some (strBytes "OK"))
        (some (strBytes "OK"))).1.take 5 =
      [PortAction.lock] ++ sendCommandTrace (strBytes "AT+CMGF=1") ++ [PortAction.unlock]) ∧
    (PortAction.write (strBytes "AT+CSCS=\"GSM\"" ++ strBytes "\r\n") ∈
      (SendSMS (strBytes "123") (strBytes "Hi") (some (strBytes "OK")) (some (strBytes "OK"))
        (some (strBytes "OK"))).1.take 10) ∧
    (∃ pre, (SendSMS (strBytes "123") [0x416] (some (strBytes "OK")) (some (strBytes "OK"))
        (some (strBytes "OK"))).1 =
      pre ++ sendCommandTrace (strBytes "AT+CSCS=\"GSM\"") ++ [PortAction.unlock] ∧
      PortAction.write (strBytes "AT+CSCS=\"UCS2\"" ++ strBytes "\r\n") ∈ pre ∧
      PortAction.write ((strBytes "AT+CMGS=\"" ++ EncodeUCS2 (strBytes "123") ++ [34]) ++ [13]) ∈ pre ∧
      PortAction.write (EncodeUCS2 [0x416] ++ [26]) ∈ pre) :=
  ⟨(SendSMS_encoding_selection (strBytes "123") (strBytes "Hi") _ _ _ (by decide)).2.1,
   (SendSMS_encoding_selection (strBytes "123") (strBytes "Hi") _ _ _ (by decide)).2.2.2
     (by decide),
   (SendSMS_encoding_selection (strBytes "123") [0x416] _ _ _ (by decide)).2.2.1 (by decide)⟩
